import Mathlib

/-!
Verification of the visual occupancy scoring engine
(src/backend/cv/train/visual_occupancy.py) against its specification.

The pipeline is embedded shallowly: images are grids of 8-bit BGR pixels,
OpenCV float arithmetic is modelled exactly over the rationals, Python
round(x, 2) is modelled as round-half-to-even at two decimals, and the
external edge/line extraction (cv2.Canny followed by cv2.HoughLinesP,
which is internally randomized) is modelled by passing its output -- an
optional list of line segments -- as a parameter; everything the
repository itself does with that output (horizontal filtering, median,
scoring, result assembly) is embedded from the source.
-/

namespace VisualOccupancy

/-- Model of Python round(x, 2) at integer precision: round half to even. -/
def roundHalfEven (x : ℚ) : ℤ :=
  if x - ⌊x⌋ < 1/2 then ⌊x⌋
  else if 1/2 < x - ⌊x⌋ then ⌊x⌋ + 1
  else if Even ⌊x⌋ then ⌊x⌋ else ⌊x⌋ + 1

/-- Model of Python round(x, 2): two-decimal rounding, half to even. -/
def round2 (x : ℚ) : ℚ := (roundHalfEven (x * 100) : ℚ) / 100

/-- An 8-bit BGR pixel as decoded by cv2.imread. -/
structure BGR where
  b : ℕ
  g : ℕ
  r : ℕ
deriving DecidableEq

/-- An 8-bit HSV pixel (H in 0..180, S and V in 0..255). -/
structure HSV where
  h : ℕ
  s : ℕ
  v : ℕ
deriving DecidableEq

/-- Model of the OpenCV 8-bit BGR to HSV conversion
(cv2.cvtColor with COLOR_BGR2HSV, visual_occupancy.py line 42):
V = max channel, S = 255*(V-min)/V rounded, H = half the hue angle in
degrees, rounded. -/
def hsvOfBGR (p : BGR) : HSV :=
  let mx := max p.r (max p.g p.b)
  let mn := min p.r (min p.g p.b)
  let s : ℕ := if mx = 0 then 0 else
    (roundHalfEven ((255 * ((mx : ℚ) - (mn : ℚ))) / (mx : ℚ))).toNat
  let hdeg : ℚ :=
    if mx = mn then 0
    else if mx = p.r then 60 * ((p.g : ℚ) - (p.b : ℚ)) / ((mx : ℚ) - (mn : ℚ))
    else if mx = p.g then 120 + 60 * ((p.b : ℚ) - (p.r : ℚ)) / ((mx : ℚ) - (mn : ℚ))
    else 240 + 60 * ((p.r : ℚ) - (p.g : ℚ)) / ((mx : ℚ) - (mn : ℚ))
  let hdeg := if hdeg < 0 then hdeg + 360 else hdeg
  ⟨(roundHalfEven (hdeg / 2)).toNat, s, mx⟩

/-- A decoded image: height, width, and the pixel grid (indexed row,
column; only indices in [0,h) x [0,w) are meaningful). -/
structure Image where
  h : ℕ
  w : ℕ
  pix : ℤ → ℤ → BGR

/-- Whether (r, c) is inside the image. -/
def inBounds (img : Image) (r c : ℤ) : Bool :=
  decide (0 ≤ r ∧ r < (img.h : ℤ) ∧ 0 ≤ c ∧ c < (img.w : ℤ))

/-- The white range of line 45-47: cv2.inRange(hsv, [0,0,200], [180,30,255]). -/
def inRangeWhite (p : HSV) : Bool :=
  decide (p.h ≤ 180 ∧ p.s ≤ 30 ∧ 200 ≤ p.v ∧ p.v ≤ 255)

/-- The saturated-color range of line 80-82:
cv2.inRange(hsv, [0,50,50], [180,255,255]). -/
def inRangeColor (p : HSV) : Bool :=
  decide (p.h ≤ 180 ∧ 50 ≤ p.s ∧ p.s ≤ 255 ∧ 50 ≤ p.v ∧ p.v ≤ 255)

/-- white_mask of line 47. -/
def whiteMask (img : Image) (r c : ℤ) : Bool :=
  inRangeWhite (hsvOfBGR (img.pix r c))

/-- product_mask before morphology: cv2.bitwise_not(white_mask), line 50. -/
def productMaskRaw (img : Image) (r c : ℤ) : Bool :=
  ! whiteMask img r c

/-- Offsets of the 5x5 rectangular structuring element of line 53,
anchored at its center. -/
def ker5 : List ℤ := [-2, -1, 0, 1, 2]

/-- Binary dilation with the 5x5 rectangle; pixels outside the image do
not contribute (OpenCV treats the border as the dilation-neutral value). -/
def dilateM (img : Image) (m : ℤ → ℤ → Bool) (r c : ℤ) : Bool :=
  ker5.any fun di => ker5.any fun dj =>
    inBounds img (r + di) (c + dj) && m (r + di) (c + dj)

/-- Binary erosion with the 5x5 rectangle; pixels outside the image do
not constrain (OpenCV treats the border as the erosion-neutral value). -/
def erodeM (img : Image) (m : ℤ → ℤ → Bool) (r c : ℤ) : Bool :=
  ker5.all fun di => ker5.all fun dj =>
    !inBounds img (r + di) (c + dj) || m (r + di) (c + dj)

/-- product_mask after MORPH_CLOSE (dilate then erode) followed by
MORPH_OPEN (erode then dilate), lines 53-55. -/
def productMask (img : Image) : ℤ → ℤ → Bool :=
  dilateM img (erodeM img (erodeM img (dilateM img (productMaskRaw img))))

/-- color_mask of line 82. -/
def colorMask (img : Image) (r c : ℤ) : Bool :=
  inRangeColor (hsvOfBGR (img.pix r c))

/-- snack_mask = cv2.bitwise_and(product_mask, color_mask), line 85. -/
def snackMask (img : Image) (r c : ℤ) : Bool :=
  productMask img r c && colorMask img r c

/-- cv2.countNonZero over the row band [r0, r1) and all columns. -/
def countRegion (img : Image) (m : ℤ → ℤ → Bool) (r0 r1 : ℕ) : ℕ :=
  ∑ r ∈ Finset.Ico r0 r1, ∑ c ∈ Finset.range img.w,
    (if m (r : ℤ) (c : ℤ) then 1 else 0)

/-- total_pixels = height * width, line 88. -/
def totalPixels (img : Image) : ℕ := img.h * img.w

/-- filled_pixels = cv2.countNonZero(product_mask), line 89. -/
def filledPixels (img : Image) : ℕ := countRegion img (productMask img) 0 img.h

/-- snack_pixels = cv2.countNonZero(snack_mask), line 90. -/
def snackPixels (img : Image) : ℕ := countRegion img (snackMask img) 0 img.h

/-- fill_percent = (filled_pixels / total_pixels) * 100, line 92. -/
def fillPercent (img : Image) : ℚ :=
  ((filledPixels img : ℚ) / (totalPixels img : ℚ)) * 100

/-- snack_percent = (snack_pixels / total_pixels) * 100, line 93. -/
def snackPercent (img : Image) : ℚ :=
  ((snackPixels img : ℚ) / (totalPixels img : ℚ)) * 100

/-- top_third_pixels = countNonZero(product_mask[0:height//3, :]), line 96. -/
def topThird (img : Image) : ℕ :=
  countRegion img (productMask img) 0 (img.h / 3)

/-- middle_third_pixels over product_mask[height//3 : 2*height//3, :], line 97. -/
def midThird (img : Image) : ℕ :=
  countRegion img (productMask img) (img.h / 3) ((2 * img.h) / 3)

/-- bottom_third_pixels over product_mask[2*height//3 :, :], line 98. -/
def botThird (img : Image) : ℕ :=
  countRegion img (productMask img) ((2 * img.h) / 3) img.h

/-- total_filled = top + middle + bottom, line 100. -/
def totalFilled (img : Image) : ℕ := topThird img + midThird img + botThird img

/-- The vertical-distribution rule of lines 102-111, as a function of the
three band counts; the first matching branch wins. -/
def verticalScoreOf (t m b : ℕ) : ℕ :=
  if t + m + b = 0 then 0
  else if (t : ℚ) > ((t + m + b : ℕ) : ℚ) * 0.45 then 9
  else if m > max t b then 7
  else if b > m then 4
  else 5

/-- vertical_score of lines 102-111 applied to the image's band counts. -/
def verticalScore (img : Image) : ℕ :=
  verticalScoreOf (topThird img) (midThird img) (botThird img)

/-- One line segment as returned by cv2.HoughLinesP (line 62): endpoint
coordinates (x1, y1, x2, y2) in pixels. -/
structure Segment where
  x1 : ℕ
  y1 : ℕ
  x2 : ℕ
  y2 : ℕ
deriving DecidableEq

/-- Midpoint rows of the roughly horizontal segments, lines 66-71: keep
segments with abs(y2 - y1) < 20 and record (y1 + y2) // 2. -/
def horizontalMids (segs : List Segment) : List ℕ :=
  segs.filterMap fun s =>
    if ((s.y2 : ℤ) - (s.y1 : ℤ)).natAbs < 20 then some ((s.y1 + s.y2) / 2)
    else none

/-- Model of numpy.median on a list of naturals: sort; middle element if
the length is odd, else the mean of the two middle elements. -/
def npMedian (l : List ℕ) : ℚ :=
  let s := l.insertionSort (· ≤ ·)
  let n := s.length
  if n % 2 = 1 then ((s.getD (n / 2) 0 : ℕ) : ℚ)
  else (((s.getD (n / 2 - 1) 0 : ℕ) : ℚ) + ((s.getD (n / 2) 0 : ℕ) : ℚ)) / 2

/-- fill_line_y of lines 63-75, as a function of the HoughLinesP output
(None, or the list of extracted segments): the integer part of the median
midpoint row of the horizontal segments, when any exist. -/
def fillLineY (lines : Option (List Segment)) : Option ℕ :=
  match lines with
  | none => none
  | some segs =>
    let hl := horizontalMids segs
    if hl = [] then none else some (Int.toNat ⌊npMedian hl⌋)

/-- fill_line_score of lines 114-118: neutral 5 when no line was found,
otherwise min(10, (1 - lineY/height) * 10). -/
def fillLineScoreRaw (fly : Option ℕ) (height : ℕ) : ℚ :=
  match fly with
  | none => 5
  | some y => min 10 ((1 - (y : ℚ) / (height : ℚ)) * 10)

/-- snack_bonus as a function of snack_percent, line 121:
min(1.5, snack_percent / 20). -/
def snackBonusOf (sp : ℚ) : ℚ := min 1.5 (sp / 20)

/-- snack_bonus of line 121 for an image. -/
def snackBonus (img : Image) : ℚ := snackBonusOf (snackPercent img)

/-- fill_score = min(10, (fill_percent / 100) * 10), line 125. -/
def fillScore (img : Image) : ℚ := min 10 ((fillPercent img / 100) * 10)

/-- combined_score of lines 128-142: the weighted sum of the four signals
with weights 0.50 / 0.20 / 0.15 / 0.15 (the code first rescales
vertical_score and fill_line_score by /10*10). -/
def combinedScore (img : Image) (lines : Option (List Segment)) : ℚ :=
  (fillScore img) * 0.50 +
  (((verticalScore img : ℚ) / 10) * 10) * 0.20 +
  ((fillLineScoreRaw (fillLineY lines) img.h / 10) * 10) * 0.15 +
  (snackBonusOf (snackPercent img) * 10) * 0.15

/-- final_score = min(10, max(0, combined_score)), line 144. -/
def finalRaw (img : Image) (lines : Option (List Segment)) : ℚ :=
  min 10 (max 0 (combinedScore img lines))

/-- categorize_score, lines 184-197. -/
def categorize_score (score : ℚ) : String :=
  if score < 1 then "empty"
  else if score < 3 then "sparse"
  else if score < 5 then "partial"
  else if score < 7 then "good"
  else if score < 9.5 then "nearly_full"
  else "full"

/-- The result record assembled at lines 146-173 (the static weight
description strings are omitted). -/
structure OccupancyResult where
  fill_percent : ℚ
  snack_percent : ℚ
  fill_score : ℚ
  vertical_score : ℕ
  fill_line_score : ℚ
  combined_score : ℚ
  final_score : ℚ
  category : String
  has_fill_line : Bool
  fill_line_position : Option ℕ
  total_pixels : ℕ
  filled_pixels : ℕ
  snack_pixels : ℕ
  top_third_percent : ℚ
  middle_third_percent : ℚ
  bottom_third_percent : ℚ
deriving DecidableEq

/-- Result construction, lines 146-173. Note the truthiness guards of
lines 151 and 156: fill_line_score is reported as 0 and
fill_line_position as null whenever fill_line_y is None OR equals 0. -/
def analyzeResult (img : Image) (lines : Option (List Segment)) : OccupancyResult :=
  let fly := fillLineY lines
  let tf := totalFilled img
  { fill_percent := round2 (fillPercent img)
    snack_percent := round2 (snackPercent img)
    fill_score := round2 (fillScore img)
    vertical_score := verticalScore img
    fill_line_score :=
      match fly with
      | some y => if y = 0 then 0 else round2 (fillLineScoreRaw fly img.h)
      | none => 0
    combined_score := round2 (combinedScore img lines)
    final_score := round2 (finalRaw img lines)
    category := categorize_score (finalRaw img lines)
    has_fill_line := fly.isSome
    fill_line_position :=
      match fly with
      | some y => if y = 0 then none else some y
      | none => none
    total_pixels := totalPixels img
    filled_pixels := filledPixels img
    snack_pixels := snackPixels img
    top_third_percent :=
      if 0 < tf then round2 (((topThird img : ℚ) / ((max 1 tf : ℕ) : ℚ)) * 100) else 0
    middle_third_percent :=
      if 0 < tf then round2 (((midThird img : ℚ) / ((max 1 tf : ℕ) : ℚ)) * 100) else 0
    bottom_third_percent :=
      if 0 < tf then round2 (((botThird img : ℚ) / ((max 1 tf : ℕ) : ℚ)) * 100) else 0 }

/-- Entry point analyze_fill_level, lines 23-181. The input is None when
cv2.imread cannot decode the image (line 34-36 raises). In debug mode
the three cv2.imwrite calls of lines 177-179 run with no exception
handler; writeRaises abstracts whether they raise (cv2.imwrite throws
cv2.error when no encoder exists for the path extension), in which case
the exception escapes after the result was computed. -/
def analyze_fill_level (input : Option Image) (lines : Option (List Segment))
    (debug : Bool) (writeRaises : Bool) : Except String OccupancyResult :=
  match input with
  | none => Except.error "Cannot read image"
  | some img =>
    let result := analyzeResult img lines
    if debug && writeRaises then Except.error "imwrite: could not find a writer"
    else Except.ok result

/-! Concrete pixels and images used in witnesses and counterexamples. -/

/-- A pure white pixel (255, 255, 255). -/
def whiteBGR : BGR := ⟨255, 255, 255⟩

/-- A fully saturated red pixel (BGR (0, 0, 255)). -/
def redBGR : BGR := ⟨0, 0, 255⟩

/-- A light gray pixel (201, 201, 201): still inside the white range
(saturation 0, value 201 at least 200) yet dark enough that the step from
255 to 201 produces a strong Canny edge. -/
def gray201 : BGR := ⟨201, 201, 201⟩

/-- A 1 x 1 all-white image. -/
def imgWhite1 : Image := ⟨1, 1, fun _ _ => whiteBGR⟩

/-- A 3 x 3 solid red image. -/
def imgRed3 : Image := ⟨3, 3, fun _ _ => redBGR⟩

/-- A 101 x 1 image, white (255) above row 34 and light gray (201) from
row 34 down. Every pixel is inside the white range, so the product mask
is empty, while the brightness step of 54 gray levels at row 34 is a
strong Canny edge, so the line extractor reports a horizontal segment
at row 34. -/
def imgStep : Image := ⟨101, 1, fun r _ => if r < 34 then whiteBGR else gray201⟩

/-- The HoughLinesP output on imgStep: one horizontal segment along the
brightness step at row 34. -/
def stepLines : Option (List Segment) := some [⟨0, 34, 60, 34⟩]

/-! Rounding lemmas. -/

theorem roundHalfEven_intCast (n : ℤ) : roundHalfEven (n : ℚ) = n := by
  unfold roundHalfEven
  rw [Int.floor_intCast]
  norm_num

theorem roundHalfEven_eq_low (x : ℚ) (n : ℤ) (h1 : (n : ℚ) ≤ x)
    (h2 : x < (n : ℚ) + 1/2) : roundHalfEven x = n := by
  have hf : ⌊x⌋ = n := Int.floor_eq_iff.mpr ⟨h1, by linarith⟩
  unfold roundHalfEven
  rw [hf, if_pos (by linarith)]

theorem roundHalfEven_eq_up (x : ℚ) (n : ℤ) (h1 : (n : ℚ) + 1/2 < x)
    (h2 : x < (n : ℚ) + 1) : roundHalfEven x = n + 1 := by
  have hf : ⌊x⌋ = n := Int.floor_eq_iff.mpr ⟨by linarith, by linarith⟩
  unfold roundHalfEven
  rw [hf, if_neg (by linarith), if_pos (by linarith)]

theorem roundHalfEven_bounds (x : ℚ) (lo hi : ℤ) (h1 : (lo : ℚ) ≤ x)
    (h2 : x ≤ (hi : ℚ)) : lo ≤ roundHalfEven x ∧ roundHalfEven x ≤ hi := by
  have hlo : lo ≤ ⌊x⌋ := Int.le_floor.mpr h1
  have hhi : ⌊x⌋ ≤ hi := (Int.floor_le_floor h2).trans_eq (Int.floor_intCast hi)
  have hfl : (⌊x⌋ : ℚ) ≤ x := Int.floor_le x
  unfold roundHalfEven
  split_ifs with hc1 hc2 hev
  · exact ⟨hlo, hhi⟩
  · have hlt : (⌊x⌋ : ℚ) < x := by linarith
    have : ⌊x⌋ < hi := by exact_mod_cast lt_of_lt_of_le hlt h2
    exact ⟨by omega, by omega⟩
  · exact ⟨hlo, hhi⟩
  · have heq : x - ⌊x⌋ = 1/2 := le_antisymm (not_lt.mp hc2) (not_lt.mp hc1)
    have hlt : (⌊x⌋ : ℚ) < x := by linarith
    have : ⌊x⌋ < hi := by exact_mod_cast lt_of_lt_of_le hlt h2
    exact ⟨by omega, by omega⟩

theorem round2_div100 (n : ℤ) : round2 ((n : ℚ) / 100) = (n : ℚ) / 100 := by
  unfold round2
  rw [div_mul_cancel₀ _ (by norm_num : (100 : ℚ) ≠ 0), roundHalfEven_intCast]

theorem round2_bounds {x : ℚ} (h1 : 0 ≤ x) (h2 : x ≤ 10) :
    0 ≤ round2 x ∧ round2 x ≤ 10 := by
  have hb := roundHalfEven_bounds (x * 100) 0 1000
    (by push_cast; linarith) (by push_cast; linarith)
  have hb0 : (0 : ℚ) ≤ (roundHalfEven (x * 100) : ℚ) := by exact_mod_cast hb.1
  have hb1 : (roundHalfEven (x * 100) : ℚ) ≤ 1000 := by exact_mod_cast hb.2
  unfold round2
  constructor
  · linarith
  · linarith

/-! Morphology on constant masks. -/

theorem zero_mem_ker5 : (0 : ℤ) ∈ ker5 := by simp [ker5]

theorem dilateM_eq_false {img : Image} {m : ℤ → ℤ → Bool}
    (hm : ∀ r c, inBounds img r c = true → m r c = false) (r c : ℤ) :
    dilateM img m r c = false := by
  rw [Bool.eq_false_iff]
  intro hcon
  rw [dilateM, List.any_eq_true] at hcon
  obtain ⟨di, _, hcon⟩ := hcon
  rw [List.any_eq_true] at hcon
  obtain ⟨dj, _, hcon⟩ := hcon
  rw [Bool.and_eq_true] at hcon
  have := hm _ _ hcon.1
  rw [hcon.2] at this
  simp at this

theorem erodeM_eq_false {img : Image} {m : ℤ → ℤ → Bool}
    (hm : ∀ r c, inBounds img r c = true → m r c = false) {r c : ℤ}
    (hrc : inBounds img r c = true) : erodeM img m r c = false := by
  rw [Bool.eq_false_iff]
  intro hcon
  rw [erodeM, List.all_eq_true] at hcon
  have h1 := hcon 0 zero_mem_ker5
  rw [List.all_eq_true] at h1
  have h2 := h1 0 zero_mem_ker5
  rw [add_zero, add_zero, hrc, hm _ _ hrc] at h2
  simp at h2

theorem erodeM_eq_true {img : Image} {m : ℤ → ℤ → Bool}
    (hm : ∀ r c, inBounds img r c = true → m r c = true) (r c : ℤ) :
    erodeM img m r c = true := by
  rw [erodeM, List.all_eq_true]
  intro di _
  rw [List.all_eq_true]
  intro dj _
  cases hb : inBounds img (r + di) (c + dj) with
  | false => simp
  | true => simp [hm _ _ hb]

theorem dilateM_eq_true {img : Image} {m : ℤ → ℤ → Bool}
    (hm : ∀ r c, inBounds img r c = true → m r c = true) {r c : ℤ}
    (hrc : inBounds img r c = true) : dilateM img m r c = true := by
  rw [dilateM, List.any_eq_true]
  refine ⟨0, zero_mem_ker5, ?_⟩
  rw [List.any_eq_true]
  refine ⟨0, zero_mem_ker5, ?_⟩
  rw [add_zero, add_zero, hrc, hm _ _ hrc]
  rfl

theorem productMask_eq_false {img : Image}
    (hw : ∀ r c, inBounds img r c = true → whiteMask img r c = true) :
    ∀ r c, inBounds img r c = true → productMask img r c = false := by
  have hraw : ∀ r c, inBounds img r c = true → productMaskRaw img r c = false := by
    intro r c hrc
    rw [productMaskRaw, hw _ _ hrc]
    rfl
  have h1 : ∀ r c, dilateM img (productMaskRaw img) r c = false :=
    fun r c => dilateM_eq_false hraw r c
  have h2 : ∀ r c, inBounds img r c = true →
      erodeM img (dilateM img (productMaskRaw img)) r c = false :=
    fun r c hrc => erodeM_eq_false (fun r c hrc => h1 r c) hrc
  have h3 : ∀ r c, inBounds img r c = true →
      erodeM img (erodeM img (dilateM img (productMaskRaw img))) r c = false :=
    fun r c hrc => erodeM_eq_false h2 hrc
  intro r c _
  exact dilateM_eq_false h3 r c

theorem productMask_eq_true {img : Image}
    (hw : ∀ r c, inBounds img r c = true → whiteMask img r c = false) :
    ∀ r c, inBounds img r c = true → productMask img r c = true := by
  have hraw : ∀ r c, inBounds img r c = true → productMaskRaw img r c = true := by
    intro r c hrc
    rw [productMaskRaw, hw _ _ hrc]
    rfl
  have h1 : ∀ r c, inBounds img r c = true →
      dilateM img (productMaskRaw img) r c = true :=
    fun r c hrc => dilateM_eq_true hraw hrc
  have h2 : ∀ r c, erodeM img (dilateM img (productMaskRaw img)) r c = true :=
    fun r c => erodeM_eq_true h1 r c
  have h3 : ∀ r c, erodeM img (erodeM img (dilateM img (productMaskRaw img))) r c = true :=
    fun r c => erodeM_eq_true (fun r c hrc => h2 r c) r c
  intro r c hrc
  exact dilateM_eq_true (fun r c hrc => h3 r c) hrc

/-! Counting constant masks. -/

theorem inBounds_coe {img : Image} {r c : ℕ} (hr : r < img.h) (hc : c < img.w) :
    inBounds img (r : ℤ) (c : ℤ) = true := by
  rw [inBounds, decide_eq_true_eq]
  refine ⟨by positivity, by exact_mod_cast hr, by positivity, by exact_mod_cast hc⟩

theorem countRegion_eq_zero {img : Image} {m : ℤ → ℤ → Bool} {r0 r1 : ℕ}
    (h1 : r1 ≤ img.h)
    (hm : ∀ r c, inBounds img r c = true → m r c = false) :
    countRegion img m r0 r1 = 0 := by
  rw [countRegion]
  apply Finset.sum_eq_zero
  intro r hr
  apply Finset.sum_eq_zero
  intro c hc
  rw [Finset.mem_Ico] at hr
  rw [Finset.mem_range] at hc
  rw [hm _ _ (inBounds_coe (lt_of_lt_of_le hr.2 h1) hc)]
  rfl

theorem countRegion_eq_mul {img : Image} {m : ℤ → ℤ → Bool} {r0 r1 : ℕ}
    (h1 : r1 ≤ img.h)
    (hm : ∀ r c, inBounds img r c = true → m r c = true) :
    countRegion img m r0 r1 = (r1 - r0) * img.w := by
  rw [countRegion]
  rw [show ∑ r ∈ Finset.Ico r0 r1, ∑ c ∈ Finset.range img.w,
      (if m (r : ℤ) (c : ℤ) then 1 else 0) = ∑ _r ∈ Finset.Ico r0 r1, img.w from ?_]
  · rw [Finset.sum_const, Nat.card_Ico, smul_eq_mul]
  · apply Finset.sum_congr rfl
    intro r hr
    rw [Finset.mem_Ico] at hr
    rw [show ∑ c ∈ Finset.range img.w, (if m (r : ℤ) (c : ℤ) then 1 else 0)
        = ∑ _c ∈ Finset.range img.w, 1 from ?_]
    · rw [Finset.sum_const, Finset.card_range, smul_eq_mul, mul_one]
    · apply Finset.sum_congr rfl
      intro c hc
      rw [Finset.mem_range] at hc
      rw [hm _ _ (inBounds_coe (lt_of_lt_of_le hr.2 h1) hc)]
      rfl

/-! Pixel-level facts. -/

theorem roundHalfEven_zero : roundHalfEven 0 = 0 := by
  have := roundHalfEven_intCast 0
  simpa using this

theorem hsv_gray (g : ℕ) : hsvOfBGR ⟨g, g, g⟩ = ⟨0, 0, g⟩ := by
  unfold hsvOfBGR
  simp [roundHalfEven_zero]

theorem hsv_red : hsvOfBGR redBGR = ⟨0, 255, 255⟩ := by
  unfold hsvOfBGR redBGR
  norm_num [roundHalfEven_zero]
  rw [show (255 : ℚ) = ((255 : ℤ) : ℚ) by norm_num, roundHalfEven_intCast]
  rfl

theorem white_is_white : inRangeWhite (hsvOfBGR whiteBGR) = true := by
  rw [show whiteBGR = ⟨255, 255, 255⟩ from rfl, hsv_gray]
  decide

theorem gray201_is_white : inRangeWhite (hsvOfBGR gray201) = true := by
  rw [show gray201 = ⟨201, 201, 201⟩ from rfl, hsv_gray]
  decide

theorem red_not_white : inRangeWhite (hsvOfBGR redBGR) = false := by
  rw [hsv_red]
  decide

theorem red_is_color : inRangeColor (hsvOfBGR redBGR) = true := by
  rw [hsv_red]
  decide

/-! Signal values on an image whose in-bounds pixels are all inside the
white range (the product mask is then empty). -/

theorem counts_whitish {img : Image}
    (hw : ∀ r c, inBounds img r c = true → whiteMask img r c = true) :
    filledPixels img = 0 ∧ snackPixels img = 0 ∧
    topThird img = 0 ∧ midThird img = 0 ∧ botThird img = 0 := by
  have hpm := productMask_eq_false hw
  have hsm : ∀ r c, inBounds img r c = true → snackMask img r c = false := by
    intro r c hrc
    rw [snackMask, hpm _ _ hrc]
    rfl
  refine ⟨countRegion_eq_zero le_rfl hpm, countRegion_eq_zero le_rfl hsm,
    countRegion_eq_zero (by omega) hpm, countRegion_eq_zero (by omega) hpm,
    countRegion_eq_zero le_rfl hpm⟩

theorem signals_whitish {img : Image}
    (hw : ∀ r c, inBounds img r c = true → whiteMask img r c = true) :
    fillPercent img = 0 ∧ snackPercent img = 0 ∧ verticalScore img = 0 ∧
    fillScore img = 0 ∧ snackBonusOf (snackPercent img) = 0 := by
  obtain ⟨h1, h2, h3, h4, h5⟩ := counts_whitish hw
  have hfp : fillPercent img = 0 := by
    rw [fillPercent, h1]
    norm_num
  have hsp : snackPercent img = 0 := by
    rw [snackPercent, h2]
    norm_num
  refine ⟨hfp, hsp, ?_, ?_, ?_⟩
  · rw [verticalScore, h3, h4, h5]
    rfl
  · rw [fillScore, hfp]
    norm_num
  · rw [hsp, snackBonusOf]
    norm_num

/-! Signal values on a solid red image (the product and snack masks are
then full). -/

theorem counts_red {img : Image}
    (hp : ∀ r c, inBounds img r c = true → img.pix r c = redBGR) :
    filledPixels img = img.h * img.w ∧ snackPixels img = img.h * img.w ∧
    topThird img = (img.h / 3) * img.w ∧
    midThird img = ((2 * img.h) / 3 - img.h / 3) * img.w ∧
    botThird img = (img.h - (2 * img.h) / 3) * img.w := by
  have hnw : ∀ r c, inBounds img r c = true → whiteMask img r c = false := by
    intro r c hrc
    rw [whiteMask, hp _ _ hrc, red_not_white]
  have hpm := productMask_eq_true hnw
  have hsm : ∀ r c, inBounds img r c = true → snackMask img r c = true := by
    intro r c hrc
    rw [snackMask, hpm _ _ hrc, colorMask, hp _ _ hrc, red_is_color]
    rfl
  refine ⟨?_, ?_, ?_, ?_, ?_⟩
  · rw [filledPixels, countRegion_eq_mul le_rfl hpm, Nat.sub_zero]
  · rw [snackPixels, countRegion_eq_mul le_rfl hsm, Nat.sub_zero]
  · rw [topThird, countRegion_eq_mul (by omega) hpm, Nat.sub_zero]
  · rw [midThird, countRegion_eq_mul (by omega) hpm]
  · rw [botThird, countRegion_eq_mul le_rfl hpm]

/-! Vertical-distribution characterization. -/

theorem cond45_iff (t s : ℕ) : ((s : ℚ) * 0.45 < (t : ℚ)) ↔ 9 * s < 20 * t := by
  have h : ((s : ℚ) * 0.45 < (t : ℚ)) ↔ ((9 * s : ℕ) : ℚ) < ((20 * t : ℕ) : ℚ) := by
    push_cast
    constructor <;> intro h <;> linarith
  rw [h, Nat.cast_lt]

theorem verticalScoreOf_eq_nat (t m b : ℕ) :
    verticalScoreOf t m b =
      if t + m + b = 0 then 0
      else if 9 * (t + m + b) < 20 * t then 9
      else if m > max t b then 7
      else if b > m then 4
      else 5 := by
  unfold verticalScoreOf
  rcases eq_or_ne (t + m + b) 0 with h0 | h0
  · simp [h0]
  · rw [if_neg h0, if_neg h0]
    by_cases h9 : 9 * (t + m + b) < 20 * t
    · have hq : (t : ℚ) > ((t + m + b : ℕ) : ℚ) * 0.45 := (cond45_iff t (t + m + b)).mpr h9
      rw [if_pos hq, if_pos h9]
    · have hq : ¬((t : ℚ) > ((t + m + b : ℕ) : ℚ) * 0.45) :=
        fun hc => h9 ((cond45_iff t (t + m + b)).mp hc)
      rw [if_neg hq, if_neg h9]

theorem verticalScoreOf_red (h w : ℕ) (hh : 0 < h) (hw : 0 < w) :
    verticalScoreOf ((h / 3) * w) (((2 * h) / 3 - h / 3) * w) ((h - (2 * h) / 3) * w)
      = if h % 3 = 1 then 4 else 5 := by
  rw [verticalScoreOf_eq_nat]
  have hexp : ∀ k : ℕ, (k + 1) * w = k * w + w := fun k => by ring
  rcases (show h % 3 = 0 ∨ h % 3 = 1 ∨ h % 3 = 2 by omega) with h3 | h3 | h3
  · have e1 : (2 * h) / 3 - h / 3 = h / 3 := by omega
    have e2 : h - (2 * h) / 3 = h / 3 := by omega
    have hkw : 0 < h / 3 * w := Nat.mul_pos (by omega) hw
    rw [e1, e2, if_neg (show ¬h % 3 = 1 by omega)]
    rw [if_neg (Nat.pos_iff_ne_zero.mp (by linarith)), if_neg (by intro hc; linarith),
      if_neg (not_lt.mpr (le_max_left _ _)), if_neg (lt_irrefl _)]
  · have e1 : (2 * h) / 3 - h / 3 = h / 3 := by omega
    have e2 : h - (2 * h) / 3 = h / 3 + 1 := by omega
    have hlt : (h / 3) * w < (h / 3 + 1) * w := by
      rw [hexp]
      exact Nat.lt_add_of_pos_right hw
    have hp1 : 0 < (h / 3 + 1) * w := Nat.mul_pos (Nat.succ_pos _) hw
    have hpos : 0 < h / 3 * w + h / 3 * w + (h / 3 + 1) * w :=
      lt_of_lt_of_le hp1 (Nat.le_add_left _ _)
    rw [e1, e2, if_pos h3]
    rw [if_neg (Nat.pos_iff_ne_zero.mp hpos),
      if_neg (show ¬(9 * (h / 3 * w + h / 3 * w + (h / 3 + 1) * w) < 20 * (h / 3 * w)) by
        rw [hexp]; intro hc; linarith),
      if_neg (not_lt.mpr (le_max_left _ _)), if_pos hlt]
  · have e1 : (2 * h) / 3 - h / 3 = h / 3 + 1 := by omega
    have e2 : h - (2 * h) / 3 = h / 3 + 1 := by omega
    have hp1 : 0 < (h / 3 + 1) * w := Nat.mul_pos (Nat.succ_pos _) hw
    have hpos : 0 < h / 3 * w + (h / 3 + 1) * w + (h / 3 + 1) * w :=
      lt_of_lt_of_le hp1 (Nat.le_add_left _ _)
    rw [e1, e2, if_neg (show ¬h % 3 = 1 by omega)]
    rw [if_neg (Nat.pos_iff_ne_zero.mp hpos),
      if_neg (show ¬(9 * (h / 3 * w + (h / 3 + 1) * w + (h / 3 + 1) * w) < 20 * (h / 3 * w)) by
        rw [hexp]; intro hc; linarith),
      if_neg (not_lt.mpr (le_max_right _ _)), if_neg (lt_irrefl _)]

/-! Concrete evaluations of the line detector and rounding. -/

/-- The HoughLinesP output used in the C10 witness: one horizontal
segment along the top row. -/
def zeroLines : Option (List Segment) := some [⟨0, 0, 5, 0⟩]

theorem fillLineY_step : fillLineY stepLines = some 34 := by
  show (if horizontalMids [⟨0, 34, 60, 34⟩] = [] then none
    else some (Int.toNat ⌊npMedian (horizontalMids [⟨0, 34, 60, 34⟩])⌋)) = some 34
  rw [show horizontalMids [⟨0, 34, 60, 34⟩] = [34] from rfl]
  rw [if_neg (by simp), show npMedian [34] = ((34 : ℕ) : ℚ) from rfl, Int.floor_natCast]
  rfl

theorem fillLineY_zero : fillLineY zeroLines = some 0 := by
  show (if horizontalMids [⟨0, 0, 5, 0⟩] = [] then none
    else some (Int.toNat ⌊npMedian (horizontalMids [⟨0, 0, 5, 0⟩])⌋)) = some 0
  rw [show horizontalMids [⟨0, 0, 5, 0⟩] = [0] from rfl]
  rw [if_neg (by simp), show npMedian [0] = ((0 : ℕ) : ℚ) from rfl, Int.floor_natCast]
  rfl

theorem round2_zero : round2 0 = 0 := by
  have h := round2_div100 0
  norm_num at h
  exact h

theorem round2_three_quarters : round2 (3/4) = 3/4 := by
  have h := round2_div100 75
  norm_num at h
  exact h

theorem round2_nine : round2 9 = 9 := by
  have h := round2_div100 900
  norm_num at h
  exact h

theorem round2_44_5 : round2 (44/5) = 44/5 := by
  have h := round2_div100 880
  norm_num at h
  exact h

theorem round2_ten : round2 10 = 10 := by
  have h := round2_div100 1000
  norm_num at h
  exact h

theorem round2_hundred : round2 100 = 100 := by
  have h := round2_div100 10000
  norm_num at h
  exact h

theorem round2_step : round2 (201/202) = 1 := by
  unfold round2
  rw [show (201/202 * 100 : ℚ) = 20100/202 by norm_num]
  rw [roundHalfEven_eq_up (20100/202) 99 (by norm_num) (by norm_num)]
  norm_num

theorem whitish_scores {img : Image} (lines : Option (List Segment))
    (hw : ∀ r c, inBounds img r c = true → whiteMask img r c = true) :
    fillPercent img = 0 ∧
    combinedScore img lines = fillLineScoreRaw (fillLineY lines) img.h * 0.15 := by
  obtain ⟨hfp, hsp, hvs, hfs, hsb⟩ := signals_whitish hw
  refine ⟨hfp, ?_⟩
  rw [combinedScore, hfs, hvs, hsb]
  push_cast
  ring

/-! Claims C2, C3, C4. -/

theorem whiteMask_imgWhite1 :
    ∀ r c, inBounds imgWhite1 r c = true → whiteMask imgWhite1 r c = true :=
  fun r c _ => by
    rw [whiteMask, show imgWhite1.pix r c = whiteBGR from rfl, white_is_white]

/-- C2 (corrected): on a fully white image the fill percent is 0 and the
category is "empty", but the final score is 0.75, not 0: with no product
pixels and no fill line the neutral line default 5 still contributes
5 * 0.15 to the combined score. -/
theorem c2_white_image (img : Image)
    (hp : ∀ r c, inBounds img r c = true → img.pix r c = whiteBGR) :
    (analyzeResult img none).fill_percent = 0 ∧
    (analyzeResult img none).final_score = 0.75 ∧
    (analyzeResult img none).category = "empty" := by
  have hw : ∀ r c, inBounds img r c = true → whiteMask img r c = true := by
    intro r c hrc
    rw [whiteMask, hp _ _ hrc, white_is_white]
  obtain ⟨hfp, hcomb⟩ := whitish_scores none hw
  have hfin : finalRaw img none = 3/4 := by
    rw [finalRaw, hcomb, show fillLineScoreRaw (fillLineY none) img.h = 5 from rfl]
    norm_num
  refine ⟨?_, ?_, ?_⟩
  · show round2 (fillPercent img) = 0
    rw [hfp, round2_zero]
  · show round2 (finalRaw img none) = 0.75
    rw [hfin, round2_three_quarters]
    norm_num
  · show categorize_score (finalRaw img none) = "empty"
    rw [hfin, categorize_score, if_pos (by norm_num)]

/-- C2 witness: the 1 x 1 all-white image. -/
theorem c2_white_image_witness :
    (analyzeResult imgWhite1 none).fill_percent = 0 ∧
    (analyzeResult imgWhite1 none).final_score = 0.75 ∧
    (analyzeResult imgWhite1 none).category = "empty" :=
  c2_white_image imgWhite1 (fun _ _ _ => rfl)

/-- C2 counterexample: on the 1 x 1 all-white image the final score is
0.75, not 0 as the claim states. -/
theorem c2_counterexample :
    (analyzeResult imgWhite1 none).fill_percent = 0 ∧
    (analyzeResult imgWhite1 none).final_score = 0.75 ∧
    ¬(analyzeResult imgWhite1 none).final_score = 0 ∧
    (analyzeResult imgWhite1 none).category = "empty" := by
  obtain ⟨hfp, hcomb⟩ := whitish_scores none whiteMask_imgWhite1
  have hfin : finalRaw imgWhite1 none = 3/4 := by
    rw [finalRaw, hcomb, show fillLineScoreRaw (fillLineY none) imgWhite1.h = 5 from rfl]
    norm_num
  have hsc : (analyzeResult imgWhite1 none).final_score = 0.75 := by
    show round2 (finalRaw imgWhite1 none) = 0.75
    rw [hfin, round2_three_quarters]
    norm_num
  refine ⟨?_, hsc, ?_, ?_⟩
  · show round2 (fillPercent imgWhite1) = 0
    rw [hfp, round2_zero]
  · rw [hsc]
    norm_num
  · show categorize_score (finalRaw imgWhite1 none) = "empty"
    rw [hfin, categorize_score, if_pos (by norm_num)]

/-- C3 (corrected): when no extracted segment qualifies as horizontal (or
no segments at all were extracted), the result has has_fill_line false and
fill_line_position null, and the neutral default 5 is used inside the
score fusion; but the reported fill_line_score field is 0, not 5, because
of the truthiness guard at line 151. -/
theorem c3_no_line (img : Image) (lines : Option (List Segment))
    (hno : lines = none ∨ ∃ segs, lines = some segs ∧ horizontalMids segs = []) :
    (analyzeResult img lines).has_fill_line = false ∧
    (analyzeResult img lines).fill_line_position = none ∧
    (analyzeResult img lines).fill_line_score = 0 ∧
    fillLineScoreRaw (fillLineY lines) img.h = 5 := by
  have hfly : fillLineY lines = none := by
    rcases hno with h | ⟨segs, hs, hm⟩
    · rw [h]
      rfl
    · rw [hs]
      show (if horizontalMids segs = [] then none
        else some (Int.toNat ⌊npMedian (horizontalMids segs)⌋)) = none
      rw [hm, if_pos rfl]
  refine ⟨?_, ?_, ?_, ?_⟩
  · show (fillLineY lines).isSome = false
    rw [hfly]
    rfl
  · show (match fillLineY lines with
      | some y => if y = 0 then none else some y
      | none => none) = (none : Option ℕ)
    rw [hfly]
  · show (match fillLineY lines with
      | some y => if y = 0 then 0 else round2 (fillLineScoreRaw (fillLineY lines) img.h)
      | none => 0) = (0 : ℚ)
    rw [hfly]
  · rw [hfly]
    rfl

/-- C3 witness: no segments at all. -/
theorem c3_no_line_witness :
    (analyzeResult imgWhite1 none).has_fill_line = false ∧
    (analyzeResult imgWhite1 none).fill_line_position = none ∧
    (analyzeResult imgWhite1 none).fill_line_score = 0 ∧
    fillLineScoreRaw (fillLineY (none : Option (List Segment))) imgWhite1.h = 5 :=
  c3_no_line imgWhite1 none (Or.inl rfl)

/-- C3 counterexample: with no line, the reported fill_line_score field
is 0 and not 5 as the claim states. -/
theorem c3_counterexample :
    (analyzeResult imgWhite1 none).fill_line_score = 0 ∧
    ¬(analyzeResult imgWhite1 none).fill_line_score = 5 := by
  have h0 : (analyzeResult imgWhite1 none).fill_line_score = 0 := rfl
  refine ⟨h0, ?_⟩
  rw [h0]
  norm_num

/-- C4 (confirmed): the category function is exactly the half-open
threshold ladder with the six literal strings; the intervals partition
the rationals, so they cannot overlap. -/
theorem c4_category_ladder (s : ℚ) :
    (s < 1 ∧ categorize_score s = "empty") ∨
    (1 ≤ s ∧ s < 3 ∧ categorize_score s = "sparse") ∨
    (3 ≤ s ∧ s < 5 ∧ categorize_score s = "partial") ∨
    (5 ≤ s ∧ s < 7 ∧ categorize_score s = "good") ∨
    (7 ≤ s ∧ s < 9.5 ∧ categorize_score s = "nearly_full") ∨
    (9.5 ≤ s ∧ categorize_score s = "full") := by
  unfold categorize_score
  rcases lt_or_le s 1 with h1 | h1
  · exact Or.inl ⟨h1, by rw [if_pos h1]⟩
  rcases lt_or_le s 3 with h3 | h3
  · exact Or.inr (Or.inl ⟨h1, h3, by rw [if_neg (not_lt.mpr h1), if_pos h3]⟩)
  rcases lt_or_le s 5 with h5 | h5
  · exact Or.inr (Or.inr (Or.inl ⟨h3, h5,
      by rw [if_neg (not_lt.mpr h1), if_neg (not_lt.mpr h3), if_pos h5]⟩))
  rcases lt_or_le s 7 with h7 | h7
  · exact Or.inr (Or.inr (Or.inr (Or.inl ⟨h5, h7,
      by rw [if_neg (not_lt.mpr h1), if_neg (not_lt.mpr h3), if_neg (not_lt.mpr h5),
        if_pos h7]⟩)))
  rcases lt_or_le s 9.5 with h95 | h95
  · exact Or.inr (Or.inr (Or.inr (Or.inr (Or.inl ⟨h7, h95,
      by rw [if_neg (not_lt.mpr h1), if_neg (not_lt.mpr h3), if_neg (not_lt.mpr h5),
        if_neg (not_lt.mpr h7), if_pos h95]⟩))))
  · exact Or.inr (Or.inr (Or.inr (Or.inr (Or.inr ⟨h95,
      by rw [if_neg (not_lt.mpr h1), if_neg (not_lt.mpr h3), if_neg (not_lt.mpr h5),
        if_neg (not_lt.mpr h7), if_neg (not_lt.mpr h95)]⟩))))

/-! Claims C5, C6, C7. -/

/-- C5 (confirmed): the vertical-distribution score follows the exact
first-match rule order on the three band counts; it is 0 exactly when
there are no product pixels, and always lies in 0, 4, 5, 7, 9. -/
theorem c5_vertical_rule (img : Image) :
    (verticalScore img = 0 ∨ verticalScore img = 4 ∨ verticalScore img = 5 ∨
      verticalScore img = 7 ∨ verticalScore img = 9) ∧
    (verticalScore img = 0 ↔ topThird img + midThird img + botThird img = 0) ∧
    ((topThird img + midThird img + botThird img = 0 ∧ verticalScore img = 0) ∨
     (0 < topThird img + midThird img + botThird img ∧
       0.45 * ((topThird img + midThird img + botThird img : ℕ) : ℚ) < (topThird img : ℚ) ∧
       verticalScore img = 9) ∨
     (0 < topThird img + midThird img + botThird img ∧
       (topThird img : ℚ) ≤ 0.45 * ((topThird img + midThird img + botThird img : ℕ) : ℚ) ∧
       max (topThird img) (botThird img) < midThird img ∧
       verticalScore img = 7) ∨
     (0 < topThird img + midThird img + botThird img ∧
       (topThird img : ℚ) ≤ 0.45 * ((topThird img + midThird img + botThird img : ℕ) : ℚ) ∧
       midThird img ≤ max (topThird img) (botThird img) ∧
       midThird img < botThird img ∧
       verticalScore img = 4) ∨
     (0 < topThird img + midThird img + botThird img ∧
       (topThird img : ℚ) ≤ 0.45 * ((topThird img + midThird img + botThird img : ℕ) : ℚ) ∧
       midThird img ≤ max (topThird img) (botThird img) ∧
       botThird img ≤ midThird img ∧
       verticalScore img = 5)) := by
  have main : ∀ t m b : ℕ,
      (verticalScoreOf t m b = 0 ∨ verticalScoreOf t m b = 4 ∨ verticalScoreOf t m b = 5 ∨
        verticalScoreOf t m b = 7 ∨ verticalScoreOf t m b = 9) ∧
      (verticalScoreOf t m b = 0 ↔ t + m + b = 0) ∧
      ((t + m + b = 0 ∧ verticalScoreOf t m b = 0) ∨
       (0 < t + m + b ∧ 0.45 * ((t + m + b : ℕ) : ℚ) < (t : ℚ) ∧ verticalScoreOf t m b = 9) ∨
       (0 < t + m + b ∧ (t : ℚ) ≤ 0.45 * ((t + m + b : ℕ) : ℚ) ∧ max t b < m ∧
         verticalScoreOf t m b = 7) ∨
       (0 < t + m + b ∧ (t : ℚ) ≤ 0.45 * ((t + m + b : ℕ) : ℚ) ∧ m ≤ max t b ∧ m < b ∧
         verticalScoreOf t m b = 4) ∨
       (0 < t + m + b ∧ (t : ℚ) ≤ 0.45 * ((t + m + b : ℕ) : ℚ) ∧ m ≤ max t b ∧ b ≤ m ∧
         verticalScoreOf t m b = 5)) := by
    intro t m b
    rw [verticalScoreOf_eq_nat]
    by_cases h0 : t + m + b = 0
    · rw [if_pos h0]
      exact ⟨Or.inl rfl, by omega, Or.inl ⟨h0, rfl⟩⟩
    · have hpos : 0 < t + m + b := Nat.pos_of_ne_zero h0
      rw [if_neg h0]
      by_cases h9 : 9 * (t + m + b) < 20 * t
      · have hq : 0.45 * ((t + m + b : ℕ) : ℚ) < (t : ℚ) := by
          rw [mul_comm]
          exact (cond45_iff t (t + m + b)).mpr h9
        rw [if_pos h9]
        exact ⟨by omega, by omega, Or.inr (Or.inl ⟨hpos, hq, rfl⟩)⟩
      · have hq : (t : ℚ) ≤ 0.45 * ((t + m + b : ℕ) : ℚ) := by
          rw [mul_comm]
          by_contra hc
          exact h9 ((cond45_iff t (t + m + b)).mp (not_le.mp hc))
        rw [if_neg h9]
        by_cases h7 : m > max t b
        · rw [if_pos h7]
          exact ⟨by omega, by omega, Or.inr (Or.inr (Or.inl ⟨hpos, hq, h7, rfl⟩))⟩
        · rw [if_neg h7]
          by_cases h4 : b > m
          · rw [if_pos h4]
            exact ⟨by omega, by omega,
              Or.inr (Or.inr (Or.inr (Or.inl ⟨hpos, hq, not_lt.mp h7, h4, rfl⟩)))⟩
          · rw [if_neg h4]
            exact ⟨by omega, by omega,
              Or.inr (Or.inr (Or.inr (Or.inr ⟨hpos, hq, not_lt.mp h7, not_lt.mp h4, rfl⟩)))⟩
  exact main (topThird img) (midThird img) (botThird img)

/-- C6 (confirmed): the fusion formulas are exactly as specified:
fill score, line score on a detected line, the 50/20/15/15 weighted sum,
and the final clamp. -/
theorem c6_fusion (img : Image) (lines : Option (List Segment)) (y : ℕ) :
    fillScore img = min 10 (fillPercent img / 100 * 10) ∧
    (fillLineY lines = some y →
      fillLineScoreRaw (fillLineY lines) img.h = min 10 ((1 - (y : ℚ) / (img.h : ℚ)) * 10)) ∧
    combinedScore img lines =
      fillScore img * 0.50 + (verticalScore img : ℚ) * 0.20 +
      fillLineScoreRaw (fillLineY lines) img.h * 0.15 + (snackBonus img * 10) * 0.15 ∧
    finalRaw img lines = min 10 (max 0 (combinedScore img lines)) := by
  refine ⟨rfl, ?_, ?_, rfl⟩
  · intro hy
    rw [hy]
    rfl
  · rw [combinedScore, snackBonus]
    ring

/-- C6 witness: the line at row 34 of the 101-row step image. -/
theorem c6_fusion_witness :
    fillLineScoreRaw (fillLineY stepLines) imgStep.h
      = min 10 ((1 - ((34 : ℕ) : ℚ) / (imgStep.h : ℚ)) * 10) :=
  (c6_fusion imgStep stepLines 34).2.1 fillLineY_step

/-- C7 (confirmed): the snack bonus is min(1.5, snackPercent/20); it is
monotone non-decreasing, 0 at 0, and exactly 1.5 from 30 upward. -/
theorem c7_snack_bonus (img : Image) (x y : ℚ) :
    snackBonus img = snackBonusOf (snackPercent img) ∧
    snackBonusOf x = min 1.5 (x / 20) ∧
    snackBonusOf 0 = 0 ∧
    (x ≤ y → snackBonusOf x ≤ snackBonusOf y) ∧
    (30 ≤ x → snackBonusOf x = 1.5) := by
  refine ⟨rfl, rfl, by norm_num [snackBonusOf], ?_, ?_⟩
  · intro hxy
    exact min_le_min (le_refl _) (by linarith)
  · intro hx
    rw [snackBonusOf, min_eq_left (by linarith)]

/-- C7 witness: bonus 0 at percent 0 and saturation 1.5 at percent 30. -/
theorem c7_snack_bonus_witness :
    snackBonusOf 0 = 0 ∧ snackBonusOf 0 ≤ snackBonusOf 30 ∧ snackBonusOf 30 = 1.5 := by
  obtain ⟨-, -, h0, hmono, -⟩ := c7_snack_bonus imgWhite1 0 30
  obtain ⟨-, -, -, -, hsat⟩ := c7_snack_bonus imgWhite1 30 30
  exact ⟨h0, hmono (by norm_num), hsat (by norm_num)⟩

/-! Claims C1, C8, C9, C10. -/

theorem finalRaw_bounds (img : Image) (lines : Option (List Segment)) :
    0 ≤ finalRaw img lines ∧ finalRaw img lines ≤ 10 := by
  rw [finalRaw]
  exact ⟨le_min (by norm_num) (le_max_left 0 _), min_le_left _ _⟩

/-- C1 (corrected): the reported final score always lies in 0..10, and
the category is the ladder applied to the pre-rounding final score: one
underlying score in 0..10 yields both record fields. The category is not
in general the ladder of the rounded final_score field the record
reports (see the counterexample). -/
theorem c1_score_range_category (img : Image) (lines : Option (List Segment)) :
    (0 ≤ (analyzeResult img lines).final_score ∧
      (analyzeResult img lines).final_score ≤ 10) ∧
    ∃ s : ℚ, 0 ≤ s ∧ s ≤ 10 ∧
      (analyzeResult img lines).final_score = round2 s ∧
      (analyzeResult img lines).category = categorize_score s := by
  have hb := finalRaw_bounds img lines
  have hr := round2_bounds hb.1 hb.2
  exact ⟨⟨hr.1, hr.2⟩, ⟨finalRaw img lines, hb.1, hb.2, rfl, rfl⟩⟩

/-- C1 counterexample: a whitish 101 x 1 image with a brightness step at
row 34 (the step is a Canny edge, so a horizontal segment at row 34 is
extracted). The unrounded score is 201/202, so the record reports
final_score 1.00 with category "empty", while the ladder at the reported
score 1.00 gives "sparse": the reported category drifts from the
reported score. -/
theorem c1_counterexample :
    (analyzeResult imgStep stepLines).final_score = 1 ∧
    (analyzeResult imgStep stepLines).category = "empty" ∧
    categorize_score ((analyzeResult imgStep stepLines).final_score) = "sparse" ∧
    ¬(analyzeResult imgStep stepLines).category
        = categorize_score ((analyzeResult imgStep stepLines).final_score) := by
  have hw : ∀ r c, inBounds imgStep r c = true → whiteMask imgStep r c = true := by
    intro r c _
    rw [whiteMask]
    show inRangeWhite (hsvOfBGR (if r < 34 then whiteBGR else gray201)) = true
    by_cases h : r < 34
    · rw [if_pos h, white_is_white]
    · rw [if_neg h, gray201_is_white]
  obtain ⟨hfp, hcomb⟩ := whitish_scores stepLines hw
  have hfls : fillLineScoreRaw (fillLineY stepLines) imgStep.h = 670/101 := by
    rw [fillLineY_step]
    show min 10 ((1 - ((34 : ℕ) : ℚ) / ((101 : ℕ) : ℚ)) * 10) = 670/101
    norm_num
  have hfin : finalRaw imgStep stepLines = 201/202 := by
    rw [finalRaw, hcomb, hfls]
    norm_num
  have hsc : (analyzeResult imgStep stepLines).final_score = 1 := by
    show round2 (finalRaw imgStep stepLines) = 1
    rw [hfin, round2_step]
  have hcat : (analyzeResult imgStep stepLines).category = "empty" := by
    show categorize_score (finalRaw imgStep stepLines) = "empty"
    rw [hfin, categorize_score, if_pos (by norm_num)]
  have hlad : categorize_score ((analyzeResult imgStep stepLines).final_score) = "sparse" := by
    rw [hsc, categorize_score, if_neg (by norm_num), if_pos (by norm_num)]
  refine ⟨hsc, hcat, hlad, ?_⟩
  rw [hcat, hlad]
  decide

/-- C8 (corrected): with debug off, the analysis fails exactly when the
image cannot be decoded, and otherwise returns the complete result
record; but with debug on there is no exception handler around the
cv2.imwrite calls, so a raising debug write also aborts (failures are
not swallowed). -/
theorem c8_error_iff (input : Option Image) (lines : Option (List Segment))
    (debug writeRaises : Bool) :
    ((∃ e, analyze_fill_level input lines debug writeRaises = Except.error e) ↔
      (input = none ∨ (debug = true ∧ writeRaises = true))) ∧
    (∀ img, input = some img → ¬(debug = true ∧ writeRaises = true) →
      analyze_fill_level input lines debug writeRaises
        = Except.ok (analyzeResult img lines)) := by
  cases input with
  | none =>
    refine ⟨⟨fun _ => Or.inl rfl, fun _ => ⟨"Cannot read image", rfl⟩⟩, ?_⟩
    intro img h
    exact absurd h (by simp)
  | some img =>
    cases debug <;> cases writeRaises <;>
      simp [analyze_fill_level]

/-- C8 witness: a decoded image with debug off gives the complete record. -/
theorem c8_error_iff_witness :
    analyze_fill_level (some imgWhite1) none false false
      = Except.ok (analyzeResult imgWhite1 none) :=
  (c8_error_iff (some imgWhite1) none false false).2 imgWhite1 rfl (by simp)

/-- C8 counterexample: a successfully decoded image still aborts when
debug is on and a debug imwrite raises, contradicting the claim that an
undecodable image is the only aborting case. -/
theorem c8_counterexample :
    analyze_fill_level (some imgWhite1) none true true
      = Except.error "imwrite: could not find a writer" ∧
    some imgWhite1 ≠ (none : Option Image) := ⟨rfl, by simp⟩

/-- Full evaluation of the result record on a solid red image: every
field the red-image scenario mentions, with the exact final score as a
function of the height remainder mod 3. -/
theorem red_result (img : Image) (hh : 0 < img.h) (hw : 0 < img.w)
    (hp : ∀ r c, inBounds img r c = true → img.pix r c = redBGR) :
    (analyzeResult img none).fill_percent = 100 ∧
    (analyzeResult img none).snack_percent = 100 ∧
    (analyzeResult img none).fill_score = 10 ∧
    snackBonusOf (snackPercent img) = 1.5 ∧
    (analyzeResult img none).final_score = (if img.h % 3 = 1 then (44/5 : ℚ) else 9) ∧
    (analyzeResult img none).category = "nearly_full" := by
  obtain ⟨hf, hs, ht, hm, hb⟩ := counts_red hp
  have hne : ((img.h * img.w : ℕ) : ℚ) ≠ 0 := by
    rw [Nat.cast_ne_zero]
    exact Nat.mul_ne_zero (by omega) (by omega)
  have hfp : fillPercent img = 100 := by
    rw [fillPercent, hf, totalPixels, div_self hne, one_mul]
  have hsp : snackPercent img = 100 := by
    rw [snackPercent, hs, totalPixels, div_self hne, one_mul]
  have hfsc : fillScore img = 10 := by
    rw [fillScore, hfp]
    norm_num
  have hsb : snackBonusOf (snackPercent img) = 1.5 := by
    rw [hsp, snackBonusOf]
    norm_num
  have hvs : verticalScore img = if img.h % 3 = 1 then 4 else 5 := by
    rw [verticalScore, ht, hm, hb]
    exact verticalScoreOf_red img.h img.w hh hw
  have hcomb : combinedScore img none = 8 + (verticalScore img : ℚ) / 5 := by
    rw [combinedScore, hfsc, hsb, show fillLineScoreRaw (fillLineY none) img.h = 5 from rfl]
    ring
  have hfin : finalRaw img none = (if img.h % 3 = 1 then (44/5 : ℚ) else 9) := by
    by_cases h3 : img.h % 3 = 1
    · rw [finalRaw, hcomb, hvs, if_pos h3, if_pos h3]
      norm_num
    · rw [finalRaw, hcomb, hvs, if_neg h3, if_neg h3]
      norm_num
  refine ⟨?_, ?_, ?_, hsb, ?_, ?_⟩
  · show round2 (fillPercent img) = 100
    rw [hfp, round2_hundred]
  · show round2 (snackPercent img) = 100
    rw [hsp, round2_hundred]
  · show round2 (fillScore img) = 10
    rw [hfsc, round2_ten]
  · show round2 (finalRaw img none) = (if img.h % 3 = 1 then (44/5 : ℚ) else 9)
    rw [hfin]
    by_cases h3 : img.h % 3 = 1
    · rw [if_pos h3]
      exact round2_44_5
    · rw [if_neg h3]
      exact round2_nine
  · show categorize_score (finalRaw img none) = "nearly_full"
    rw [hfin]
    by_cases h3 : img.h % 3 = 1
    · rw [if_pos h3, categorize_score, if_neg (by norm_num), if_neg (by norm_num),
        if_neg (by norm_num), if_neg (by norm_num), if_pos (by norm_num)]
    · rw [if_neg h3, categorize_score, if_neg (by norm_num), if_neg (by norm_num),
        if_neg (by norm_num), if_neg (by norm_num), if_pos (by norm_num)]

/-- C9 (corrected): on a solid saturated red image the raw percentages,
bonus and fill score are as the claim says, but the final score is 9.0
(or 8.8 when the height leaves remainder 1 mod 3, where the bottom band
is strictly larger) and the category is "nearly_full", not "full": with
no detected fill line the 15 percent line weight contributes only its
neutral default, capping the combined score at 9. -/
theorem c9_red_image (img : Image) (hh : 0 < img.h) (hw : 0 < img.w)
    (hp : ∀ r c, inBounds img r c = true → img.pix r c = redBGR) :
    (analyzeResult img none).fill_percent = 100 ∧
    (analyzeResult img none).snack_percent = 100 ∧
    (analyzeResult img none).fill_score = 10 ∧
    snackBonusOf (snackPercent img) = 1.5 ∧
    ((analyzeResult img none).final_score = 44/5 ∨
      (analyzeResult img none).final_score = 9) ∧
    (analyzeResult img none).category = "nearly_full" := by
  obtain ⟨h1, h2, h3, h4, h5, h6⟩ := red_result img hh hw hp
  refine ⟨h1, h2, h3, h4, ?_, h6⟩
  by_cases hm : img.h % 3 = 1
  · rw [h5, if_pos hm]
    exact Or.inl rfl
  · rw [h5, if_neg hm]
    exact Or.inr rfl

/-- C9 witness: the 3 x 3 solid red image. -/
theorem c9_red_image_witness :
    (analyzeResult imgRed3 none).fill_percent = 100 ∧
    (analyzeResult imgRed3 none).snack_percent = 100 ∧
    (analyzeResult imgRed3 none).fill_score = 10 ∧
    snackBonusOf (snackPercent imgRed3) = 1.5 ∧
    ((analyzeResult imgRed3 none).final_score = 44/5 ∨
      (analyzeResult imgRed3 none).final_score = 9) ∧
    (analyzeResult imgRed3 none).category = "nearly_full" :=
  c9_red_image imgRed3 (by decide) (by decide) (fun _ _ _ => rfl)

/-- C9 counterexample: the 3 x 3 solid red image scores 9.0 and is
categorized "nearly_full", not "full" as the claim states. -/
theorem c9_counterexample :
    (analyzeResult imgRed3 none).final_score = 9 ∧
    (analyzeResult imgRed3 none).category = "nearly_full" ∧
    ¬(analyzeResult imgRed3 none).category = "full" := by
  obtain ⟨-, -, -, -, h5, h6⟩ := red_result imgRed3 (by decide) (by decide)
    (fun _ _ _ => rfl)
  have hfs : (analyzeResult imgRed3 none).final_score = 9 := by
    rw [h5, if_neg (by decide : ¬imgRed3.h % 3 = 1)]
  refine ⟨hfs, h6, ?_⟩
  rw [h6]
  decide

/-- C10 (confirmed): when the detected fill line sits at row 0, the
record claims has_fill_line true yet reports a null position and a
fill_line_score of 0 (both fields are guarded by integer truthiness, and
0 is falsy), even though the score used inside the fusion is 10. -/
theorem c10_line_at_zero (img : Image) (lines : Option (List Segment))
    (h0 : fillLineY lines = some 0) :
    (analyzeResult img lines).has_fill_line = true ∧
    (analyzeResult img lines).fill_line_position = none ∧
    (analyzeResult img lines).fill_line_score = 0 ∧
    fillLineScoreRaw (fillLineY lines) img.h = 10 := by
  refine ⟨?_, ?_, ?_, ?_⟩
  · show (fillLineY lines).isSome = true
    rw [h0]
    rfl
  · show (match fillLineY lines with
      | some y => if y = 0 then none else some y
      | none => none) = (none : Option ℕ)
    rw [h0]
    rfl
  · show (match fillLineY lines with
      | some y => if y = 0 then 0 else round2 (fillLineScoreRaw (fillLineY lines) img.h)
      | none => 0) = (0 : ℚ)
    rw [h0]
    rfl
  · rw [h0]
    show min 10 ((1 - ((0 : ℕ) : ℚ) / (img.h : ℚ)) * 10) = 10
    norm_num

/-- C10 witness: a horizontal segment along the top row of the image. -/
theorem c10_line_at_zero_witness :
    (analyzeResult imgWhite1 zeroLines).has_fill_line = true ∧
    (analyzeResult imgWhite1 zeroLines).fill_line_position = none ∧
    (analyzeResult imgWhite1 zeroLines).fill_line_score = 0 ∧
    fillLineScoreRaw (fillLineY zeroLines) imgWhite1.h = 10 :=
  c10_line_at_zero imgWhite1 zeroLines fillLineY_zero

end VisualOccupancy
